import Mathlib

/-!
Verification of the `mouse_terminal` core subsystems: the input
tokenizer/editor (`src/input.rs`) and the command execution engine
(`src/executor.rs`), shallowly embedded in Lean.

Strings are modelled with Lean `String` (a wrapper around `List Char`);
byte positions use `Char.utf8Size`, matching Rust's `char_indices`.
-/

namespace MouseTerminal

/-- Decidable equality on `Except`, needed to evaluate the model's fallible
operations inside `decide`. -/
instance {ε α : Type} [DecidableEq ε] [DecidableEq α] : DecidableEq (Except ε α) := fun x y =>
  match x, y with
  | .ok a, .ok b => decidable_of_iff (a = b) (by simp)
  | .error a, .error b => decidable_of_iff (a = b) (by simp)
  | .ok _, .error _ => isFalse (by simp)
  | .error _, .ok _ => isFalse (by simp)

/-- Errors of the input subsystem, mirroring `InputError` in `src/input.rs`. -/
inductive InputError where
  | InvalidTokenIndex (idx : Nat)
  | UnmatchedQuote
deriving DecidableEq, Repr

/-- A token of the command line: text plus the byte range in the raw input,
mirroring `Token` in `src/input.rs`. -/
structure Token where
  text : String
  range : Nat × Nat
deriving DecidableEq, Repr

/-- State of the input line and editor, mirroring `InputState` in `src/input.rs`. -/
structure InputState where
  raw_input : String
  tokens : List Token
  editing : Option String
deriving DecidableEq, Repr

/-- The mutable loop state of `InputState::tokenize`: accumulated tokens,
the token text being built, the `in_quotes` and `escaped` flags, and
`start_pos`, the byte offset where the current token began. -/
structure ScanState where
  tokens : List Token
  current : String
  in_quotes : Bool
  escaped : Bool
  start_pos : Nat
deriving DecidableEq, Repr

/-- One iteration of the `for (i, c) in self.raw_input.char_indices()` loop
body of `InputState::tokenize`; `pos` is the byte index `i` of `c`. -/
def scanStep (pos : Nat) (st : ScanState) (c : Char) : ScanState :=
  if st.escaped then
    { st with current := st.current.push c, escaped := false }
  else if c = '\\' then
    { st with escaped := true }
  else if c = '"' then
    { st with in_quotes := !st.in_quotes }
  else if (c = ' ' ∨ c = '\t') ∧ st.in_quotes = false then
    if st.current ≠ "" then
      { st with tokens := st.tokens ++ [⟨st.current, (st.start_pos, pos)⟩],
                current := "", start_pos := pos + 1 }
    else
      { st with start_pos := pos + 1 }
  else
    { st with current := st.current.push c }

/-- The whole scanning loop of `InputState::tokenize`, threading the byte
position exactly as `char_indices` does. -/
def scanFrom (pos : Nat) (st : ScanState) : List Char → ScanState
  | [] => st
  | c :: cs => scanFrom (pos + c.utf8Size) (scanStep pos st c) cs

/-- The initial loop state of `InputState::tokenize`. -/
def scanInit : ScanState := ⟨[], "", false, false, 0⟩

/-- The pure core of `InputState::tokenize`: scan the raw string, fail with
`UnmatchedQuote` if the scan ends inside quotes, otherwise flush the last
non-empty token with end position `raw.len()`. -/
def tokenizeRaw (raw : String) : Except InputError (List Token) :=
  let st := scanFrom 0 scanInit raw.data
  if st.in_quotes then
    .error .UnmatchedQuote
  else if st.current ≠ "" then
    .ok (st.tokens ++ [⟨st.current, (st.start_pos, raw.utf8ByteSize)⟩])
  else
    .ok st.tokens

/-- `InputState::tokenize` as a state transformer: `self.tokens.clear()` runs
first, and the locally built token list is assigned to `self.tokens` only on
success, so a failing call leaves `tokens` empty.  The second component is
`None` on `Ok(())` and `Some e` on `Err(e)`. -/
def InputState.tokenize (s : InputState) : InputState × Option InputError :=
  match tokenizeRaw s.raw_input with
  | .ok ts => ({ s with tokens := ts }, none)
  | .error e => ({ s with tokens := [] }, some e)

/-- `InputState::set_input`: store the new raw input, then re-tokenize. -/
def InputState.set_input (s : InputState) (input : String) :
    InputState × Option InputError :=
  InputState.tokenize { s with raw_input := input }

/-- `InputState::clear`. -/
def InputState.clear (s : InputState) : InputState :=
  { s with raw_input := "", tokens := [], editing := none }

/-- `InputState::start_editing`: out-of-range index fails with
`InvalidTokenIndex` and changes nothing; otherwise the token text is copied
into the scratch buffer. -/
def InputState.start_editing (s : InputState) (token_idx : Nat) :
    InputState × Option InputError :=
  if token_idx ≥ s.tokens.length then
    (s, some (.InvalidTokenIndex token_idx))
  else
    ({ s with editing := some (((s.tokens.get? token_idx).getD ⟨"", (0, 0)⟩).text) },
     none)

/-- Rust `char::is_whitespace`: the Unicode White_Space code points. -/
def rustIsWhitespace (c : Char) : Bool :=
  decide ((0x9 ≤ c.toNat ∧ c.toNat ≤ 0xD) ∨ c.toNat = 0x20 ∨ c.toNat = 0x85 ∨
    c.toNat = 0xA0 ∨ c.toNat = 0x1680 ∨
    (0x2000 ≤ c.toNat ∧ c.toNat ≤ 0x200A) ∨
    c.toNat = 0x2028 ∨ c.toNat = 0x2029 ∨ c.toNat = 0x202F ∨
    c.toNat = 0x205F ∨ c.toNat = 0x3000)

/-- The quoting rule of `InputState::rebuild_raw_input`: a token containing
whitespace (Rust `char::is_whitespace`) is wrapped in double quotes. -/
def quoteIfWs (t : String) : String :=
  if t.data.any rustIsWhitespace then "\"" ++ t ++ "\"" else t

/-- `Vec::join(" ")`, as used by `InputState::rebuild_raw_input`. -/
def joinSp : List String → String
  | [] => ""
  | [t] => t
  | t :: ts => t ++ " " ++ joinSp ts

/-- `InputState::rebuild_raw_input`: join all token texts with single spaces,
double-quoting any text containing whitespace. -/
def InputState.rebuild_raw_input (s : InputState) : InputState :=
  { s with raw_input := joinSp (s.tokens.map (fun tk => quoteIfWs tk.text)) }

/-- `InputState::commit_edit`: out-of-range index fails with
`InvalidTokenIndex` and changes nothing; otherwise, if a scratch edit exists,
`self.editing.take()` moves it into the token's text and the raw line is
rebuilt. -/
def InputState.commit_edit (s : InputState) (token_idx : Nat) :
    InputState × Option InputError :=
  if token_idx ≥ s.tokens.length then
    (s, some (.InvalidTokenIndex token_idx))
  else
    match s.editing with
    | some edited_text =>
        let s := { s with editing := none,
                          tokens := s.tokens.set token_idx
                            ⟨edited_text, ((s.tokens.get? token_idx).getD ⟨"", (0, 0)⟩).range⟩ }
        (s.rebuild_raw_input, none)
    | none => (s, none)

/-- `InputState::cancel_edit`: discards the scratch buffer; takes no index
and cannot fail. -/
def InputState.cancel_edit (s : InputState) : InputState :=
  { s with editing := none }

/-- `InputState::update_editing`. -/
def InputState.update_editing (s : InputState) (text : String) : InputState :=
  { s with editing := some text }

/-- `InputState::get_command`. -/
def InputState.get_command (s : InputState) : String :=
  s.raw_input

/-- Token texts of a successful tokenization, dropping the byte ranges. -/
def tokenizeTexts (raw : String) : Except InputError (List String) :=
  (tokenizeRaw raw).map (fun ts => ts.map Token.text)

/-- Rebuild a raw line directly from a list of token texts, exactly as
`InputState::rebuild_raw_input` does from `self.tokens`. -/
def rebuildTexts (texts : List String) : String :=
  joinSp (texts.map quoteIfWs)

/-- Result of command execution, mirroring `ExecutionResult` in
`src/executor.rs`. -/
structure ExecutionResult where
  exit_code : Option Int
  stdout : List String
  stderr : List String
deriving DecidableEq, Repr

/-- `ExecutionResult::default`: absent exit code, empty output streams. -/
def ExecutionResult.empty : ExecutionResult := ⟨none, [], []⟩

/-- Output events crossing the channel from worker threads to `check_output`,
mirroring `ExecutionOutput` in `src/executor.rs`. -/
inductive ExecutionOutput where
  | Stdout (line : String)
  | Stderr (line : String)
  | Finished (code : Option Int)
deriving DecidableEq, Repr

/-- Externally visible side effects performed by the executor, in order:
sending `()` on the termination channel, and spawning the worker thread for
an external program. -/
inductive Action where
  | sendTerminateSignal
  | spawnWorker (program : String) (args : List String)
deriving DecidableEq, Repr

/-- State of the command executor, mirroring `Executor` in
`src/executor.rs`.  The output receiver is modelled as the list of events it
currently buffers (`none` when the receiver has been dropped), the
termination sender as a presence flag, and `Instant` timestamps as `Nat`
seconds. -/
structure Executor where
  output_rx : Option (List ExecutionOutput)
  terminate_tx : Bool
  result : ExecutionResult
  sudo_timestamp : Option Nat
deriving DecidableEq, Repr

/-- `Executor::default`. -/
def Executor.init : Executor := ⟨none, false, ExecutionResult.empty, none⟩

/-- `Executor::terminate`: take the termination sender and signal on it if it
was present, then drop the output receiver.  Returns the effect trace. -/
def Executor.terminate (e : Executor) : Executor × List Action :=
  ({ e with terminate_tx := false, output_rx := none },
   if e.terminate_tx then [Action.sendTerminateSignal] else [])

/-- `Executor::is_sudo_session_valid` at time `now` (seconds): true iff the
stored timestamp exists and elapsed time is under 15 minutes. -/
def Executor.is_sudo_session_valid (e : Executor) (now : Nat) : Bool :=
  match e.sudo_timestamp with
  | some timestamp => decide (now - timestamp < 15 * 60)
  | none => false

/-- Worker for `splitWhitespace`: `cur` holds the reversed chars of the word
being accumulated. -/
def splitWSAux (cur : List Char) : List Char → List String
  | [] => if cur = [] then [] else [⟨cur.reverse⟩]
  | c :: cs =>
    if rustIsWhitespace c then
      if cur = [] then splitWSAux [] cs else ⟨cur.reverse⟩ :: splitWSAux [] cs
    else
      splitWSAux (c :: cur) cs

/-- Rust `str::split_whitespace`: split on Unicode whitespace, discarding
empty pieces. -/
def splitWhitespace (s : String) : List String :=
  splitWSAux [] s.data

/-- How a call to `Executor::execute` returns to its caller: an `Err`, a
synchronous delegation to the `cd` built-in (filesystem effects outside this
model), or `Ok(())` after spawning the worker. -/
inductive ExecuteOutcome where
  | error (msg : String)
  | cdBuiltin (args : List String)
  | spawned (program : String) (args : List String)
deriving DecidableEq, Repr

/-- `Executor::execute` at time `now`: terminate any running command, reset
the result, split the command line on whitespace; fail on an empty line;
delegate `cd`; refresh the sudo timestamp for `sudo` with arguments when a
session is already valid; then install fresh channels and spawn the worker.
Returns the post-call state, the ordered effect trace and the outcome. -/
def Executor.execute (e : Executor) (now : Nat) (command : String) :
    Executor × List Action × ExecuteOutcome :=
  let (e, trace) := e.terminate
  let e := { e with result := ExecutionResult.empty }
  match splitWhitespace command with
  | [] => (e, trace, .error ("Empty command"))
  | program :: args =>
    if program = "cd" then
      (e, trace, .cdBuiltin args)
    else
      let e :=
        if program = "sudo" ∧ args ≠ [] then
          if e.is_sudo_session_valid now then
            { e with sudo_timestamp := some now }
          else e
        else e
      let e := { e with output_rx := some [], terminate_tx := true }
      (e, trace ++ [Action.spawnWorker program args], .spawned program args)

/-- `Executor::execute_sudo` at time `now`: terminate, reset the result,
install fresh channels, unconditionally refresh the sudo timestamp, and
spawn the worker running `sudo -S` with the rest of the command line. -/
def Executor.execute_sudo (e : Executor) (now : Nat) (command _password : String) :
    Executor × List Action :=
  let (e, trace) := e.terminate
  let e := { e with result := ExecutionResult.empty }
  let e := { e with output_rx := some [], terminate_tx := true }
  let e := { e with sudo_timestamp := some now }
  (e, trace ++ [Action.spawnWorker ("sudo") (("-S") :: (splitWhitespace command).drop 1)])

/-- Outcome of the OS-level spawn and stream capture inside
`Executor::run_command`: either the spawn itself fails, or a child exists
whose stdout/stderr pipes may each have failed to be captured; `exit` is the
eventual exit code. -/
inductive SpawnResult where
  | failure (err : String)
  | child (stdoutPipe : Option (List String)) (stderrPipe : Option (List String))
      (exit : Option Int)
deriving DecidableEq, Repr

/-- `Executor::run_command` as the events it sends on the output channel, or
the error it returns to the spawning wrapper.  Stdout/stderr interleaving is
nondeterministic in the source (two racing reader threads); this model fixes
one admissible linearization, which is irrelevant to the failure cases. -/
def run_command (sr : SpawnResult) : Except String (List ExecutionOutput) :=
  match sr with
  | .failure e => .error e
  | .child stdoutPipe stderrPipe exit =>
    match stdoutPipe with
    | none => .error ("Failed to capture stdout")
    | some outLines =>
      match stderrPipe with
      | none => .error ("Failed to capture stderr")
      | some errLines =>
        .ok (outLines.map .Stdout ++ errLines.map .Stderr ++ [.Finished exit])

/-- The worker thread body spawned by `Executor::execute`: on an `Err` from
`run_command` it sends one synthetic `Stderr` line and `Finished(Some(-1))`. -/
def worker_events (sr : SpawnResult) : List ExecutionOutput :=
  match run_command sr with
  | .ok evs => evs
  | .error e => [.Stderr ("Error: " ++ e), .Finished (some (-1))]

/-- The loop body of `Executor::check_output`, folded over the drained
events: accumulator is (result, updated, finished, exit_code). -/
def checkOutputStep (acc : ExecutionResult × Bool × Bool × Option Int)
    (ev : ExecutionOutput) : ExecutionResult × Bool × Bool × Option Int :=
  let (r, _upd, fin, ec) := acc
  match ev with
  | .Stdout line => ({ r with stdout := r.stdout ++ [line] }, true, fin, ec)
  | .Stderr line => ({ r with stderr := r.stderr ++ [line] }, true, fin, ec)
  | .Finished code => (r, true, true, code)

/-- `Executor::check_output`: with no receiver, nothing happens and `false`
is returned; otherwise all buffered events are drained, and if a `Finished`
was seen the exit code is recorded and both channel ends are dropped. -/
def Executor.check_output (e : Executor) : Executor × Bool :=
  match e.output_rx with
  | none => (e, false)
  | some evs =>
    let (r, upd, fin, ec) := evs.foldl checkOutputStep (e.result, false, false, none)
    if fin then
      ({ e with result := { r with exit_code := ec },
                output_rx := none, terminate_tx := false }, upd)
    else
      ({ e with result := r, output_rx := some [] }, upd)

/-- `Executor::is_running`. -/
def Executor.is_running (e : Executor) : Bool :=
  e.output_rx.isSome

/-- Iterated polling: the executor state after `n` successive calls to
`check_output` with no other operation in between. -/
def pollIter (e : Executor) : Nat → Executor
  | 0 => e
  | n + 1 => ((pollIter e n).check_output).1

/-- A token text that survives the rebuild/re-tokenize round trip untouched:
non-empty, with no double quote and no backslash. -/
def cleanText (t : String) : Prop :=
  t ≠ "" ∧ ∀ c ∈ t.data, c ≠ '"' ∧ c ≠ '\\'

instance (t : String) : Decidable (cleanText t) := by
  unfold cleanText; infer_instance

/-- Total UTF-8 byte length of a list of characters, matching the position
increments of `char_indices`. -/
def utf8Len : List Char → Nat
  | [] => 0
  | c :: cs => c.utf8Size + utf8Len cs

/-! ## Helper lemmas about the scanner -/

theorem data_append (s t : String) : (s ++ t).data = s.data ++ t.data := rfl

theorem mk_data (s : String) : String.mk s.data = s := rfl

theorem empty_append_str (s : String) : "" ++ s = s := by
  cases s with
  | mk l => exact congrArg String.mk rfl

theorem append_empty_mk (s : String) : s ++ String.mk [] = s := by
  cases s with
  | mk l => exact congrArg String.mk (List.append_nil l)

theorem push_append_mk (s : String) (c : Char) (cs : List Char) :
    s.push c ++ String.mk cs = s ++ String.mk (c :: cs) := by
  cases s with
  | mk l =>
    show String.mk ((l ++ [c]) ++ cs) = String.mk (l ++ (c :: cs))
    rw [List.append_assoc]
    rfl

theorem scanFrom_append (xs ys : List Char) (pos : Nat) (st : ScanState) :
    scanFrom pos st (xs ++ ys) =
      scanFrom (pos + utf8Len xs) (scanFrom pos st xs) ys := by
  induction xs generalizing pos st with
  | nil => simp [scanFrom, utf8Len]
  | cons c cs ih =>
    simp only [List.cons_append, scanFrom, utf8Len, List.append_eq]
    rw [ih, Nat.add_assoc]

theorem scanStep_quote (pos : Nat) (st : ScanState) (h : st.escaped = false) :
    scanStep pos st '"' = { st with in_quotes := !st.in_quotes } := by
  simp [scanStep, h]

theorem scanStep_backslash (pos : Nat) (st : ScanState) (h : st.escaped = false) :
    scanStep pos st '\\' = { st with escaped := true } := by
  simp [scanStep, h]

theorem scanStep_plain (pos : Nat) (st : ScanState) (c : Char)
    (h : st.escaped = false) (h1 : c ≠ '\\') (h2 : c ≠ '"')
    (h3 : ¬((c = ' ' ∨ c = '\t') ∧ st.in_quotes = false)) :
    scanStep pos st c = { st with current := st.current.push c } := by
  simp [scanStep, h, h1, h2, h3]

theorem scanStep_space_push (pos : Nat) (st : ScanState)
    (h : st.escaped = false) (hq : st.in_quotes = false) (hcur : st.current ≠ "") :
    scanStep pos st ' ' =
      { st with tokens := st.tokens ++ [⟨st.current, (st.start_pos, pos)⟩],
                current := "", start_pos := pos + 1 } := by
  simp [scanStep, h, hq, hcur]

theorem scanFrom_plainRun (cs : List Char)
    (h : ∀ c ∈ cs, c ≠ '\\' ∧ c ≠ '"' ∧ c ≠ ' ' ∧ c ≠ '\t')
    (pos : Nat) (acc : List Token) (cur : String) (sp : Nat) :
    scanFrom pos ⟨acc, cur, false, false, sp⟩ cs
      = ⟨acc, cur ++ String.mk cs, false, false, sp⟩ := by
  induction cs generalizing pos cur with
  | nil => rw [append_empty_mk]; rfl
  | cons c cs ih =>
    obtain ⟨hb, hq, hs, ht⟩ := h c (List.mem_cons_self c cs)
    have hstep : scanStep pos (⟨acc, cur, false, false, sp⟩ : ScanState) c
        = ⟨acc, cur.push c, false, false, sp⟩ := by
      rw [scanStep_plain pos _ c rfl hb hq (by simp [hs, ht])]
    simp only [scanFrom, hstep]
    rw [ih (fun c hc => h c (List.mem_cons_of_mem _ hc)), push_append_mk]

theorem scanFrom_quotedRun (cs : List Char)
    (h : ∀ c ∈ cs, c ≠ '\\' ∧ c ≠ '"')
    (pos : Nat) (acc : List Token) (cur : String) (sp : Nat) :
    scanFrom pos ⟨acc, cur, true, false, sp⟩ cs
      = ⟨acc, cur ++ String.mk cs, true, false, sp⟩ := by
  induction cs generalizing pos cur with
  | nil => rw [append_empty_mk]; rfl
  | cons c cs ih =>
    obtain ⟨hb, hq⟩ := h c (List.mem_cons_self c cs)
    have hstep : scanStep pos (⟨acc, cur, true, false, sp⟩ : ScanState) c
        = ⟨acc, cur.push c, true, false, sp⟩ := by
      rw [scanStep_plain pos _ c rfl hb hq (by simp)]
    simp only [scanFrom, hstep]
    rw [ih (fun c hc => h c (List.mem_cons_of_mem _ hc)), push_append_mk]

theorem rustIsWhitespace_space : rustIsWhitespace ' ' = true := by decide

theorem rustIsWhitespace_tab : rustIsWhitespace '\t' = true := by decide

theorem scanFrom_piece (t : String) (_hne : t ≠ "")
    (hclean : ∀ c ∈ t.data, c ≠ '"' ∧ c ≠ '\\')
    (pos : Nat) (acc : List Token) (sp : Nat) :
    scanFrom pos ⟨acc, "", false, false, sp⟩ (quoteIfWs t).data
      = ⟨acc, t, false, false, sp⟩ := by
  by_cases hws : t.data.any rustIsWhitespace
  · have hdata : (quoteIfWs t).data = '"' :: (t.data ++ ['"']) := by
      simp [quoteIfWs, hws, data_append]
    rw [hdata]
    have e1 : scanFrom pos (⟨acc, "", false, false, sp⟩ : ScanState)
        ('"' :: (t.data ++ ['"']))
        = scanFrom (pos + '"'.utf8Size) ⟨acc, "", true, false, sp⟩
            (t.data ++ ['"']) := rfl
    rw [e1, scanFrom_append,
      scanFrom_quotedRun t.data (fun c hc => ⟨(hclean c hc).2, (hclean c hc).1⟩),
      empty_append_str, mk_data]
    simp only [scanFrom]
    rw [scanStep_quote _ _ rfl]
    rfl
  · have hplain : ∀ c ∈ t.data, c ≠ '\\' ∧ c ≠ '"' ∧ c ≠ ' ' ∧ c ≠ '\t' := by
      intro c hc
      have hnws : rustIsWhitespace c = false := by
        rcases Bool.eq_false_or_eq_true (rustIsWhitespace c) with hf | hf
        · exact absurd (List.any_eq_true.mpr ⟨c, hc, hf⟩) hws
        · exact hf
      refine ⟨(hclean c hc).2, (hclean c hc).1, ?_, ?_⟩
      · intro hcc; rw [hcc, rustIsWhitespace_space] at hnws; cases hnws
      · intro hcc; rw [hcc, rustIsWhitespace_tab] at hnws; cases hnws
    have hq : quoteIfWs t = t := by simp [quoteIfWs, hws]
    rw [hq, scanFrom_plainRun t.data hplain, empty_append_str, mk_data]

theorem joinSp_cons (a b : String) (l : List String) :
    joinSp (a :: b :: l) = a ++ " " ++ joinSp (b :: l) := rfl

theorem scan_join : ∀ texts : List String,
    (∀ t ∈ texts, cleanText t) → texts ≠ [] →
    ∀ (pos : Nat) (acc : List Token) (sp : Nat),
    (scanFrom pos ⟨acc, "", false, false, sp⟩
        (joinSp (texts.map quoteIfWs)).data).in_quotes = false ∧
    (scanFrom pos ⟨acc, "", false, false, sp⟩
        (joinSp (texts.map quoteIfWs)).data).current ≠ "" ∧
    (scanFrom pos ⟨acc, "", false, false, sp⟩
        (joinSp (texts.map quoteIfWs)).data).tokens.map Token.text ++
      [(scanFrom pos ⟨acc, "", false, false, sp⟩
        (joinSp (texts.map quoteIfWs)).data).current]
      = acc.map Token.text ++ texts := by
  intro texts
  induction texts with
  | nil => intro _ hne; exact absurd rfl hne
  | cons t rest ih =>
    intro h _ pos acc sp
    obtain ⟨htne, htclean⟩ := h t (List.mem_cons_self t rest)
    cases rest with
    | nil =>
      simp only [List.map, joinSp]
      rw [scanFrom_piece t htne htclean]
      exact ⟨rfl, htne, rfl⟩
    | cons t2 rest2 =>
      simp only [List.map]
      rw [joinSp_cons]
      have hdata : (quoteIfWs t ++ " " ++ joinSp (quoteIfWs t2 :: rest2.map quoteIfWs)).data
          = (quoteIfWs t).data ++
            (' ' :: (joinSp (quoteIfWs t2 :: rest2.map quoteIfWs)).data) := by
        rw [data_append, data_append, List.append_assoc]
        rfl
      rw [hdata, scanFrom_append, scanFrom_piece t htne htclean]
      simp only [scanFrom]
      have hstep : scanStep (pos + utf8Len (quoteIfWs t).data)
          (⟨acc, t, false, false, sp⟩ : ScanState) ' '
          = ⟨acc ++ [⟨t, (sp, pos + utf8Len (quoteIfWs t).data)⟩], "", false, false,
              pos + utf8Len (quoteIfWs t).data + 1⟩ := by
        rw [scanStep_space_push _ _ rfl rfl htne]
      rw [hstep]
      have ihx := ih (fun u hu => h u (List.mem_cons_of_mem _ hu)) (by simp)
        (pos + utf8Len (quoteIfWs t).data + ' '.utf8Size)
        (acc ++ [⟨t, (sp, pos + utf8Len (quoteIfWs t).data)⟩])
        (pos + utf8Len (quoteIfWs t).data + 1)
      simp only [List.map] at ihx
      refine ⟨ihx.1, ihx.2.1, ?_⟩
      rw [ihx.2.2]
      simp [Token.text]

theorem except_map_ok {e a b : Type} (f : a → b) (x : a) :
    Except.map f (Except.ok x : Except e a) = .ok (f x) := rfl

/-! ## Helper lemmas about the executor -/

theorem execute_spawn_eq (e : Executor) (now : Nat) (cmd program : String)
    (args : List String)
    (hsplit : splitWhitespace cmd = program :: args) (hcd : program ≠ "cd") :
    e.execute now cmd =
      ({ output_rx := some [], terminate_tx := true,
         result := ExecutionResult.empty,
         sudo_timestamp :=
           if program = "sudo" ∧ args ≠ [] then
             if e.is_sudo_session_valid now then some now else e.sudo_timestamp
           else e.sudo_timestamp },
       (if e.terminate_tx then [Action.sendTerminateSignal] else [])
         ++ [Action.spawnWorker program args],
       .spawned program args) := by
  obtain ⟨rx, tx, res, sts⟩ := e
  unfold Executor.execute Executor.terminate
  rw [hsplit]
  cases sts with
  | none =>
    by_cases hsudo : program = "sudo" ∧ args ≠ [] <;>
      simp [hcd, hsudo, Executor.is_sudo_session_valid]
  | some ts =>
    by_cases hsudo : program = "sudo" ∧ args ≠ [] <;>
      by_cases hv : now - ts < 15 * 60 <;>
      simp [hcd, hsudo, hv, Executor.is_sudo_session_valid]

theorem check_output_no_receiver (e : Executor) (h : e.output_rx = none) :
    e.check_output = (e, false) := by
  unfold Executor.check_output
  rw [h]

theorem pollIter_after_terminate (e : Executor) (n : Nat) :
    pollIter (e.terminate).1 n = (e.terminate).1 := by
  induction n with
  | zero => rfl
  | succ n ih =>
    show ((pollIter (e.terminate).1 n).check_output).1 = (e.terminate).1
    rw [ih, check_output_no_receiver _ rfl]

/-! ## Claim theorems -/

/-- Claim C1: for every input string whose scan ends while still inside an
unclosed double quote, `tokenize` fails with `UnmatchedQuote`, and the failed
`set_input` call leaves no partial token list behind: the resulting state has
an empty `tokens` list (all-or-nothing). -/
theorem c1_unmatched_quote_all_or_nothing (s : String)
    (h : (scanFrom 0 scanInit s.data).in_quotes = true) :
    tokenizeRaw s = .error .UnmatchedQuote ∧
    ∀ ist : InputState,
      ist.set_input s
        = ({ raw_input := s, tokens := [], editing := ist.editing },
           some .UnmatchedQuote) := by
  have herr : tokenizeRaw s = .error .UnmatchedQuote := by
    unfold tokenizeRaw
    simp [h]
  refine ⟨herr, ?_⟩
  intro ist
  unfold InputState.set_input InputState.tokenize
  simp [herr]

/-- Witness for C1 at the unterminated-quote input from the spec. -/
theorem c1_witness :
    (scanFrom 0 scanInit ("echo \"unterminated").data).in_quotes = true ∧
    tokenizeRaw ("echo \"unterminated") = .error .UnmatchedQuote ∧
    (InputState.mk "" [] none).set_input ("echo \"unterminated")
      = ({ raw_input := ("echo \"unterminated"), tokens := [], editing := none },
         some .UnmatchedQuote) :=
  ⟨by decide, (c1_unmatched_quote_all_or_nothing _ (by decide)).1,
    (c1_unmatched_quote_all_or_nothing _ (by decide)).2 (InputState.mk "" [] none)⟩

/-- Claim C2: an unescaped double quote only toggles the scanner's quote
state and is never appended to the token text being built; concretely,
tokenizing `echo "hello world" test` yields the token text `hello world`
with the quote characters discarded. -/
theorem c2_quote_toggles_and_is_discarded (st : ScanState) (pos : Nat)
    (h : st.escaped = false) :
    scanStep pos st '"' = { st with in_quotes := !st.in_quotes } ∧
    tokenizeTexts ("echo \"hello world\" test")
      = .ok ["echo", "hello world", "test"] :=
  ⟨scanStep_quote pos st h, by decide⟩

/-- Witness for C2 at the initial scanner state. -/
theorem c2_witness :
    scanStep 0 scanInit '"' = { scanInit with in_quotes := !scanInit.in_quotes } ∧
    tokenizeTexts ("echo \"hello world\" test")
      = .ok ["echo", "hello world", "test"] :=
  c2_quote_toggles_and_is_discarded scanInit 0 rfl

/-- Claim C3: starting a non-`cd` command first signals termination to any
running command and resets `ExecutionResult` to empty, and only then spawns
the worker: the effect trace lists the termination signal (exactly when a
termination sender existed) strictly before the spawn, and the post-call
result is empty. -/
theorem c3_start_terminates_resets_then_spawns (e : Executor) (now : Nat)
    (cmd program : String) (args : List String)
    (hsplit : splitWhitespace cmd = program :: args) (hcd : program ≠ "cd") :
    ∃ e2 : Executor,
      e.execute now cmd
        = (e2,
           (if e.terminate_tx then [Action.sendTerminateSignal] else [])
             ++ [Action.spawnWorker program args],
           .spawned program args) ∧
      e2.result = ExecutionResult.empty ∧
      e2.output_rx = some [] ∧ e2.terminate_tx = true := by
  rw [execute_spawn_eq e now cmd program args hsplit hcd]
  exact ⟨_, rfl, rfl, rfl, rfl⟩

/-- Witness for C3: a running executor receiving `echo hi`. -/
theorem c3_witness :
    splitWhitespace ("echo hi") = ["echo", "hi"] ∧
    ∃ e2 : Executor,
      (Executor.mk (some []) true ExecutionResult.empty none).execute 7 ("echo hi")
        = (e2, [Action.sendTerminateSignal, Action.spawnWorker ("echo") ["hi"]],
           .spawned ("echo") ["hi"]) ∧
      e2.result = ExecutionResult.empty ∧
      e2.output_rx = some [] ∧ e2.terminate_tx = true :=
  ⟨by decide,
    c3_start_terminates_resets_then_spawns
      (Executor.mk (some []) true ExecutionResult.empty none) 7 ("echo hi")
      ("echo") ["hi"] (by decide) (by decide)⟩

/-- Counterexample to C4: with no prior privileged session, `execute` on
`sudo ls` leaves the sudo timestamp unchanged (`none`), instead of setting
it to the current time 1000 as the claim requires "regardless of whether a
session was already valid". -/
theorem c4_counterexample :
    (Executor.init.execute 1000 ("sudo ls")).1.sudo_timestamp = none ∧
    (none : Option Nat) ≠ some 1000 := by
  exact ⟨by decide, by decide⟩

/-- Claim C4 as amended: `execute` on a `sudo` command with at least one
argument refreshes the sudo timestamp to the current time, before any
spawn-side confirmation, only when a privileged session is already valid;
otherwise it leaves the timestamp unchanged.  The credential-bearing
`execute_sudo` path, in contrast, always sets it. -/
theorem c4_sudo_timestamp_amended (e : Executor) (now : Nat) (cmd pw : String)
    (args : List String)
    (hsplit : splitWhitespace cmd = "sudo" :: args) (hargs : args ≠ []) :
    (e.execute now cmd).1.sudo_timestamp
      = (if e.is_sudo_session_valid now then some now else e.sudo_timestamp) ∧
    (e.execute_sudo now cmd pw).1.sudo_timestamp = some now := by
  constructor
  · rw [execute_spawn_eq e now cmd ("sudo") args hsplit (by decide)]
    simp [hargs]
  · rfl

/-- Witness for C4 (amended) at an executor with no session. -/
theorem c4_witness :
    (Executor.init.execute 1000 ("sudo ls")).1.sudo_timestamp
      = (if Executor.init.is_sudo_session_valid 1000 then some 1000
         else Executor.init.sudo_timestamp) ∧
    (Executor.init.execute_sudo 1000 ("sudo ls") ("pw")).1.sudo_timestamp
      = some 1000 :=
  c4_sudo_timestamp_amended Executor.init 1000 ("sudo ls") ("pw") ["ls"]
    (by decide) (by decide)

/-- Claim C5: `execute` on a non-empty, non-`cd` command returns the spawned
outcome (`Ok(())` to the caller) irrespective of what later happens in the
worker, and a spawn failure or a failure to capture either output stream is
surfaced only as one synthetic `Stderr` line followed by `Finished(Some(-1))`
on the event stream. -/
theorem c5_spawn_failure_folded_into_stream (e : Executor) (now : Nat)
    (cmd program msg : String) (args ls : List String)
    (p : Option (List String)) (ec : Option Int)
    (hsplit : splitWhitespace cmd = program :: args) (hcd : program ≠ "cd") :
    (e.execute now cmd).2.2 = .spawned program args ∧
    worker_events (.failure msg)
      = [.Stderr ("Error: " ++ msg), .Finished (some (-1))] ∧
    worker_events (.child none p ec)
      = [.Stderr ("Error: " ++ "Failed to capture stdout"), .Finished (some (-1))] ∧
    worker_events (.child (some ls) none ec)
      = [.Stderr ("Error: " ++ "Failed to capture stderr"), .Finished (some (-1))] := by
  refine ⟨?_, rfl, rfl, rfl⟩
  rw [execute_spawn_eq e now cmd program args hsplit hcd]

/-- Witness for C5 at a nonexistent program name. -/
theorem c5_witness :
    (Executor.init.execute 0 ("nosuchbinary --flag")).2.2
      = .spawned ("nosuchbinary") ["--flag"] ∧
    worker_events (.failure ("No such file or directory"))
      = [.Stderr ("Error: " ++ "No such file or directory"),
         .Finished (some (-1))] := by
  have h := c5_spawn_failure_folded_into_stream Executor.init 0
    ("nosuchbinary --flag") ("nosuchbinary") ("No such file or directory")
    ["--flag"] [] none none (by decide) (by decide)
  exact ⟨h.1, h.2.1⟩

/-- Counterexample to C6: an executor cancelled while a `Finished(Some(0))`
event is already buffered.  After `terminate`, `check_output` returns the
unchanged state and `false`: the pending `Finished` event is never delivered
and `exit_code` stays absent, contradicting the claim that some subsequent
poll (with no intervening start) reports the `Finished` event. -/
theorem c6_counterexample :
    ((Executor.mk (some [ExecutionOutput.Finished (some 0)]) true
        ExecutionResult.empty none).terminate).1.check_output
      = (((Executor.mk (some [ExecutionOutput.Finished (some 0)]) true
        ExecutionResult.empty none).terminate).1, false) ∧
    ((Executor.mk (some [ExecutionOutput.Finished (some 0)]) true
        ExecutionResult.empty none).terminate).1.result.exit_code = none := by
  exact ⟨by decide, by decide⟩

/-- Claim C6 as amended: `cancel` does not block — it merely sends the
termination signal (exactly when a sender exists) — but it also drops the
output receiver, so no subsequent poll without an intervening start observes
any event: every iterated `check_output` after `terminate` leaves the state
unchanged and reports no update, so the cancelled child's death is never
observed through `Finished`; it is only superseded by the next start. -/
theorem c6_cancel_drops_receiver_amended (e : Executor) (n : Nat) :
    (e.terminate).2
      = (if e.terminate_tx then [Action.sendTerminateSignal] else []) ∧
    (e.terminate).1.output_rx = none ∧
    pollIter (e.terminate).1 n = (e.terminate).1 ∧
    ((pollIter (e.terminate).1 n).check_output).2 = false := by
  refine ⟨rfl, rfl, pollIter_after_terminate e n, ?_⟩
  rw [pollIter_after_terminate e n, check_output_no_receiver _ rfl]

/-- Claim C7 counterexample: the empty token text contains no double quote
and no backslash, yet rebuilding `[""]` yields the empty raw line, which
re-tokenizes to `[]`, not to `[""]` — the round trip fails. -/
theorem c7_counterexample :
    tokenizeTexts (rebuildTexts [""]) = .ok [] ∧
    (Except.ok ([]) : Except InputError (List String)) ≠ .ok [""] := by
  exact ⟨by decide, by decide⟩

/-- Claim C7 as amended: for every token list whose token texts are
non-empty and contain no double quote and no backslash, rebuilding the raw
line (single-space join, double-quoting whitespace-containing texts — which
is exactly what `rebuild_raw_input` computes from the token list) and
re-tokenizing yields the same token texts; the round trip is not guaranteed
when a text contains a double quote (it can even fail outright with
`UnmatchedQuote`). -/
theorem c7_roundtrip_amended (texts : List String)
    (h : ∀ t ∈ texts, cleanText t) :
    tokenizeTexts (rebuildTexts texts) = .ok texts ∧
    (∀ s : InputState,
      s.rebuild_raw_input.raw_input = rebuildTexts (s.tokens.map Token.text)) ∧
    tokenizeTexts (rebuildTexts ["a\"b"]) = .error .UnmatchedQuote := by
  refine ⟨?_, ?_, by decide⟩
  · cases texts with
    | nil => decide
    | cons t rest =>
      obtain ⟨h1, h2, h3⟩ := scan_join (t :: rest) h (by simp) 0 [] 0
      simp only [List.map] at h1 h2 h3
      unfold tokenizeTexts tokenizeRaw rebuildTexts scanInit
      simpa [h1, h2, Except.map, List.map_append] using h3
  · intro s
    unfold InputState.rebuild_raw_input rebuildTexts
    rw [List.map_map]
    rfl

/-- Witness for C7 (amended) at a three-token list with an embedded space. -/
theorem c7_witness :
    (∀ t ∈ (["ls", "-la", "hello world"] : List String), cleanText t) ∧
    tokenizeTexts (rebuildTexts ["ls", "-la", "hello world"])
      = .ok ["ls", "-la", "hello world"] :=
  ⟨by decide, (c7_roundtrip_amended ["ls", "-la", "hello world"] (by decide)).1⟩

/-- Counterexample to C8: `cancel_edit` takes no token index at all and
cannot fail: on a state whose only valid index is 0, it succeeds, merely
clearing the scratch buffer — it does not fail with `InvalidTokenIndex`
as the claim asserts for all three editor operations. -/
theorem c8_counterexample :
    (InputState.mk "a" [⟨"a", (0, 1)⟩] (some ("x"))).cancel_edit
      = InputState.mk "a" [⟨"a", (0, 1)⟩] none := by
  decide

/-- Claim C8 as amended: `start_editing` and `commit_edit` with an
out-of-range index fail with `InvalidTokenIndex` and leave the whole state
(in particular `tokens`) unmodified; `cancel_edit` takes no index, always
succeeds, and leaves `tokens` unmodified. -/
theorem c8_invalid_index_amended (s : InputState) (idx : Nat)
    (h : idx ≥ s.tokens.length) :
    s.start_editing idx = (s, some (.InvalidTokenIndex idx)) ∧
    s.commit_edit idx = (s, some (.InvalidTokenIndex idx)) ∧
    s.cancel_edit.tokens = s.tokens := by
  unfold InputState.start_editing InputState.commit_edit InputState.cancel_edit
  simp [h]

/-- Witness for C8 (amended) at index 2 of a one-token state. -/
theorem c8_witness :
    (2 ≥ (InputState.mk "a" [⟨"a", (0, 1)⟩] none).tokens.length) ∧
    (InputState.mk "a" [⟨"a", (0, 1)⟩] none).start_editing 2
      = (InputState.mk "a" [⟨"a", (0, 1)⟩] none, some (.InvalidTokenIndex 2)) ∧
    (InputState.mk "a" [⟨"a", (0, 1)⟩] none).commit_edit 2
      = (InputState.mk "a" [⟨"a", (0, 1)⟩] none, some (.InvalidTokenIndex 2)) := by
  have h := c8_invalid_index_amended (InputState.mk "a" [⟨"a", (0, 1)⟩] none) 2
    (by decide)
  exact ⟨by decide, h.1, h.2.1⟩

/-- Claim C9: `execute` on an empty or whitespace-only command line returns
the `Empty command` error, but only after the termination signal has been
sent to any running command and `ExecutionResult` has been reset: the failed
call is not atomic with respect to engine state. -/
theorem c9_empty_command_not_atomic (e : Executor) (now : Nat) (cmd : String)
    (hsplit : splitWhitespace cmd = []) :
    e.execute now cmd
      = ({ e with output_rx := none, terminate_tx := false, result := ExecutionResult.empty },
         (if e.terminate_tx then [Action.sendTerminateSignal] else []),
         .error ("Empty command")) := by
  unfold Executor.execute Executor.terminate
  rw [hsplit]

/-- Witness for C9: a running executor fed a whitespace-only line. -/
theorem c9_witness :
    splitWhitespace ("   ") = [] ∧
    (Executor.mk (some []) true (ExecutionResult.mk (some 0) ["out"] []) none).execute
        3 ("   ")
      = (Executor.mk none false ExecutionResult.empty none,
         [Action.sendTerminateSignal], .error ("Empty command")) :=
  ⟨by decide,
    c9_empty_command_not_atomic
      (Executor.mk (some []) true (ExecutionResult.mk (some 0) ["out"] []) none)
      3 ("   ") (by decide)⟩

/-- Counterexample to C10: the input `"a\` ends with an unescaped backslash
(the scan ends in the `Escaped` state), yet `tokenize` does not succeed —
the unmatched quote makes it fail with `UnmatchedQuote`. -/
theorem c10_counterexample :
    (scanFrom 0 scanInit ("\"a\\").data).escaped = true ∧
    tokenizeRaw ("\"a\\") = .error .UnmatchedQuote := by
  exact ⟨by decide, by decide⟩

/-- Claim C10 as amended: appending an unescaped trailing backslash to an
input whose quotes are balanced is not a tokenization error: tokenizing is
unchanged (in particular it succeeds), the trailing backslash appearing in
no token's text. -/
theorem c10_trailing_backslash_amended (s : String)
    (hesc : (scanFrom 0 scanInit s.data).escaped = false)
    (hq : (scanFrom 0 scanInit s.data).in_quotes = false) :
    tokenizeTexts (s.push '\\') = tokenizeTexts s ∧
    ∃ ts, tokenizeTexts s = .ok ts := by
  have hscan : scanFrom 0 scanInit (s.data ++ ['\\'])
      = ScanState.mk (scanFrom 0 scanInit s.data).tokens
          (scanFrom 0 scanInit s.data).current
          (scanFrom 0 scanInit s.data).in_quotes true
          (scanFrom 0 scanInit s.data).start_pos := by
    rw [scanFrom_append]
    simp only [scanFrom]
    rw [scanStep_backslash _ _ hesc]
  constructor
  · unfold tokenizeTexts tokenizeRaw
    by_cases hc : (scanFrom 0 scanInit s.data).current = ""
    · simp [hscan, hq, hc, except_map_ok]
    · simp [hscan, hq, hc, except_map_ok, List.map_append]
  · cases htok : tokenizeRaw s with
    | ok ts =>
      exact ⟨ts.map Token.text, by simp [tokenizeTexts, htok, except_map_ok]⟩
    | error err =>
      exfalso
      unfold tokenizeRaw at htok
      by_cases hc : (scanFrom 0 scanInit s.data).current = "" <;>
        simp [hq, hc] at htok

/-- Witness for C10 (amended) at the input `ab`. -/
theorem c10_witness :
    ((scanFrom 0 scanInit ("ab").data).escaped = false) ∧
    ((scanFrom 0 scanInit ("ab").data).in_quotes = false) ∧
    tokenizeTexts (("ab").push '\\') = tokenizeTexts ("ab") :=
  ⟨by decide, by decide,
    (c10_trailing_backslash_amended ("ab") (by decide) (by decide)).1⟩

end MouseTerminal
